import Mathlib

/-!
Shallow embedding of the core of the `loop` repository:
- the hop-hint selector (`SelectHopHints`, `chanCanBeHopHint`, `IsPublicNode`,
  `FetchChannelEdgesByID`) from `src/unnamed/part_000`, and
- the liquidity manager (`SetParameters`, `GetParameters`, `SuggestSwaps`,
  `getEligibleChannels`, `cloneParameters`, `Parameters.validate`) from
  `src/liquidity/liquidity.go`.

Machine integers (int64 of Go, `btcutil.Amount`, `time.Duration`) are modelled
as `Int`; where an overflowing operation occurs in the source, the wrap-around
is made explicit with `u64` / `i64`-style helpers.  External RPC calls of
`lndclient` are modelled as explicit environment records holding the outcome
each call would produce.  A Go `panic` (nil-pointer dereference) is a
distinguished outcome `SelRes.panic`.

Rule pointers (`*ThresholdRule`) are modelled with an explicit allocation
store `Mem` (heap plus bump allocator), so that pointer freshness and the
deep-copy semantics of `cloneParameters` are faithfully represented.
-/

namespace Loop

/-! ### Machine-integer helpers (Go int64 / uint64 / uint32 / uint16 casts) -/

/-- Go conversion `uint64(x)` of an `int64` value. -/
def u64 (x : Int) : Nat := (x % ((2 : Int) ^ 64)).toNat

/-- Reinterpret a `uint64` bit pattern as Go `int64`. -/
def i64 (n : Nat) : Int :=
  let m : Nat := n % 2 ^ 64
  if m < 2 ^ 63 then (m : Int) else (m : Int) - 2 ^ 64

/-- Go `int64` addition (wraps modulo 2^64). -/
def i64add (a b : Int) : Int := i64 (u64 a + u64 b)

/-- Go `int64` multiplication (wraps modulo 2^64). -/
def i64mul (a b : Int) : Int := i64 (u64 a * u64 b)

/-- Go conversion `uint32(x)` of an `int64` value. -/
def u32 (x : Int) : Nat := (x % ((2 : Int) ^ 32)).toNat

/-- Go conversion `uint16(x)` of an `uint32`-sized value. -/
def u16 (x : Int) : Nat := (x % ((2 : Int) ^ 16)).toNat

/-! ### lndclient data types used by both subsystems

Public keys (`route.Vertex`, 33-byte serialized keys) are abstracted as `Nat`;
channel points (strings in `lndclient.ChannelEdge`) as `String`. -/

/-- `lndclient.RoutingPolicy`: one side's forwarding policy of a channel edge. -/
structure RoutingPolicy where
  FeeBaseMsat : Int
  FeeRateMilliMsat : Int
  TimeLockDelta : Int
deriving DecidableEq, Repr

/-- `lndclient.ChannelEdge` as used by the source: the two endpoint policies
(each possibly nil), node 1's serialized public key and the channel point. -/
structure ChannelEdge where
  Node1 : Nat
  Node1Policy : Option RoutingPolicy
  Node2Policy : Option RoutingPolicy
  ChannelPoint : String
deriving DecidableEq, Repr

/-- `lndclient.ChannelInfo`: one of our own open channels. -/
structure ChannelInfo where
  ChannelID : Nat
  PubKeyBytes : Nat
  Private : Bool
  RemoteBalance : Int
  LocalBalance : Int
  Capacity : Int
deriving DecidableEq, Repr

/-- `zpay32.HopHint` as populated by `SelectHopHints`. -/
structure HopHint where
  NodeID : Nat
  ChannelID : Nat
  FeeBaseMSat : Nat
  FeeProportionalMillionths : Nat
  CLTVExpiryDelta : Nat
deriving DecidableEq, Repr

/-- Outcome of running a piece of the Go code: normal return, error return,
or a runtime panic (nil-pointer dereference). -/
inductive SelRes (α : Type) where
  | ok : α → SelRes α
  | err : Nat → SelRes α
  | panic : SelRes α
deriving DecidableEq, Repr

/-- The lnd backend as seen by `SelectHopHints`.  `GetChanInfo` returns a Go
pair (pointer, error); `lndclient` returns a nil pointer exactly when the
error is non-nil, but the model keeps the two components independent. -/
structure LndEnv where
  ListChannels : Except Nat (List ChannelInfo)
  GetChanInfo : Nat → Option ChannelEdge × Option Nat
  ParsePubKey : Nat → Except Nat Nat

/-! ### Hop-hint selection (`src/unnamed/part_000`) -/

/-- `IsPublicNode`: scans our own channel list and reports false exactly when
some channel with the given counterparty is private. -/
def IsPublicNode (channels : List ChannelInfo) (pubKey : Nat) : Bool :=
  channels.all (fun c => !(c.PubKeyBytes == pubKey && c.Private))

/-- `FetchChannelEdgesByID`: calls `GetChanInfo` and dereferences the result
before looking at the error, so a nil edge (which `lndclient` produces
together with every error) panics; otherwise the error is passed through as
the fourth component of the returned tuple. -/
def FetchChannelEdgesByID (env : LndEnv) (chanID : Nat) :
    SelRes (Nat × Option RoutingPolicy × Option RoutingPolicy × Option Nat) :=
  match env.GetChanInfo chanID with
  | (none, _) => .panic
  | (some chanInfo, e) => .ok (chanInfo.Node1, chanInfo.Node1Policy, chanInfo.Node2Policy, e)

/-- `chanCanBeHopHint`: privacy check, then fetch of the edge policies, then
selection of the policy on the counterparty's side.  The `chanInfo` argument
is received but never used, exactly as in the source. -/
def chanCanBeHopHint (env : LndEnv) (channels : List ChannelInfo)
    (channel : ChannelInfo) (chanInfo : Option ChannelEdge) :
    SelRes (Option RoutingPolicy × Bool) :=
  if !IsPublicNode channels channel.PubKeyBytes then .ok (none, false)
  else
    match FetchChannelEdgesByID env channel.ChannelID with
    | .panic => .panic
    | .err e => .err e
    | .ok (serializedPubKey, p1, p2, e) =>
      if e.isSome then .ok (none, false)
      else
        let remotePolicy := if channel.PubKeyBytes == serializedPubKey then p1 else p2
        .ok (remotePolicy, true)

/-- The `include_nodes != nil && !ok` test of `SelectHopHints`: skip a channel
exactly when a peer restriction is present and the channel's peer is not in
it (a lookup in a nil Go map yields `ok = false`). -/
def includeNodesSkip (include_nodes : Option (List Nat)) (pk : Nat) : Bool :=
  match include_nodes with
  | some ns => !ns.contains pk
  | none => false

/-- First pass of `SelectHopHints` (the `for _, channel := range openChannels`
loop).  The accumulators are the hint list, the `hopHintChans` channel-point
set and `totalHintBandwidth`.  The `chanInfo, err := ...` inside the loop body
declares fresh (shadowing) variables, so nothing here assigns the outer
`chanInfo` of the enclosing function. -/
def selectHopHintsPhase1 (env : LndEnv) (amtMSat : Int)
    (include_nodes : Option (List Nat)) (openChannels : List ChannelInfo) :
    List ChannelInfo → List (List HopHint) → List String → Int →
    SelRes (List (List HopHint) × List String × Int)
  | [], hopHints, hopHintChans, total => .ok (hopHints, hopHintChans, total)
  | channel :: rest, hopHints, hopHintChans, total =>
    if channel.RemoteBalance < amtMSat then
      selectHopHintsPhase1 env amtMSat include_nodes openChannels rest hopHints hopHintChans total
    else if includeNodesSkip include_nodes channel.PubKeyBytes then
      selectHopHintsPhase1 env amtMSat include_nodes openChannels rest hopHints hopHintChans total
    else
      match env.GetChanInfo channel.ChannelID with
      | (_, some e) => .err e
      | (chanInfo1, none) =>
        match chanCanBeHopHint env openChannels channel chanInfo1 with
        | .panic => .panic
        | .err e => .err e
        | .ok (edgePolicy, canBeHopHint) =>
          if edgePolicy.isNone || !canBeHopHint then
            selectHopHintsPhase1 env amtMSat include_nodes openChannels rest hopHints hopHintChans total
          else
            match env.GetChanInfo channel.ChannelID with
            | (_, some e) => .err e
            | (chanInfoPtr, none) =>
              match env.ParsePubKey channel.PubKeyBytes with
              | .error e => .err e
              | .ok nodeID =>
                match chanInfoPtr with
                | none => .panic
                | some chanInfo =>
                  match chanInfo.Node2Policy with
                  | none => .panic
                  | some pol =>
                    let hint : HopHint :=
                      { NodeID := nodeID
                        ChannelID := channel.ChannelID
                        FeeBaseMSat := u32 pol.FeeBaseMsat
                        FeeProportionalMillionths := u32 pol.FeeRateMilliMsat
                        CLTVExpiryDelta := u16 pol.TimeLockDelta }
                    selectHopHintsPhase1 env amtMSat include_nodes openChannels rest
                      (hopHints ++ [[hint]])
                      (hopHintChans ++ [chanInfo.ChannelPoint])
                      (i64add total channel.RemoteBalance)

/-- `hopHintFactor`: the 2x bandwidth safety margin of the second pass. -/
def hopHintFactor : Int := 2

/-- Second pass of `SelectHopHints` (the `for i := 0; i < len(openChannels)`
loop).  `chanInfo` is the outer `var chanInfo *lndclient.ChannelEdge` of the
enclosing function; every iteration that survives the two break conditions
evaluates `hopHintChans[chanInfo.ChannelPoint]`, which dereferences it. -/
def selectHopHintsPhase2 (env : LndEnv) (amtMSat : Int) (numMaxHophints : Nat)
    (openChannels : List ChannelInfo) (chanInfo : Option ChannelEdge) :
    List ChannelInfo → List (List HopHint) → List String → Int →
    SelRes (List (List HopHint))
  | [], hopHints, _, _ => .ok hopHints
  | channel :: rest, hopHints, hopHintChans, total =>
    if total > i64mul amtMSat hopHintFactor || hopHints.length ≥ numMaxHophints then
      .ok hopHints
    else
      match chanInfo with
      | none => .panic
      | some ci =>
        if hopHintChans.contains ci.ChannelPoint then
          selectHopHintsPhase2 env amtMSat numMaxHophints openChannels chanInfo rest
            hopHints hopHintChans total
        else
          match chanCanBeHopHint env openChannels channel chanInfo with
          | .panic => .panic
          | .err e => .err e
          | .ok (remotePolicy, canBeHopHint) =>
            if !canBeHopHint || remotePolicy.isNone then
              selectHopHintsPhase2 env amtMSat numMaxHophints openChannels chanInfo rest
                hopHints hopHintChans total
            else
              match env.ParsePubKey channel.PubKeyBytes with
              | .error _ =>
                selectHopHintsPhase2 env amtMSat numMaxHophints openChannels chanInfo rest
                  hopHints hopHintChans total
              | .ok nodeID =>
                match ci.Node2Policy with
                | none => .panic
                | some pol =>
                  let hint : HopHint :=
                    { NodeID := nodeID
                      ChannelID := channel.ChannelID
                      FeeBaseMSat := u32 pol.FeeBaseMsat
                      FeeProportionalMillionths := u32 pol.FeeRateMilliMsat
                      CLTVExpiryDelta := u16 pol.TimeLockDelta }
                  selectHopHintsPhase2 env amtMSat numMaxHophints openChannels chanInfo rest
                    (hopHints ++ [[hint]]) hopHintChans
                    (i64add total channel.RemoteBalance)

/-- `SelectHopHints`: list the open channels, run the first pass, return early
when it already produced at least `numMaxHophints` hints, and otherwise run
the second pass.  The outer `chanInfo` pointer is still nil at that point
(the first pass only ever assigned its own shadowing variable), which is why
`none` is passed to the second pass. -/
def SelectHopHints (env : LndEnv) (amtMSat : Int) (numMaxHophints : Nat)
    (include_nodes : Option (List Nat)) : SelRes (List (List HopHint)) :=
  match env.ListChannels with
  | .error e => .err e
  | .ok openChannels =>
    match selectHopHintsPhase1 env amtMSat include_nodes openChannels openChannels [] [] 0 with
    | .panic => .panic
    | .err e => .err e
    | .ok (hopHints, hopHintChans, totalHintBandwidth) =>
      if hopHints.length ≥ numMaxHophints then .ok hopHints
      else
        selectHopHintsPhase2 env amtMSat numMaxHophints openChannels none openChannels
          hopHints hopHintChans totalHintBandwidth

/-- The first pass together with the channel listing, for relating the result
of `SelectHopHints` to what the first pass alone produced. -/
def phase1Result (env : LndEnv) (amtMSat : Int) (include_nodes : Option (List Nat)) :
    SelRes (List (List HopHint) × List String × Int) :=
  match env.ListChannels with
  | .error e => .err e
  | .ok openChannels =>
    selectHopHintsPhase1 env amtMSat include_nodes openChannels openChannels [] [] 0

/-- Projection of a first-pass result to its hint list. -/
def selResHints : SelRes (List (List HopHint) × List String × Int) →
    SelRes (List (List HopHint))
  | .ok (h, _, _) => .ok h
  | .err e => .err e
  | .panic => .panic

/-- A hint's source channel is in the open-channel list and passes the
`IsPublicNode` privacy check. -/
def hintFromPublicChannel (channels : List ChannelInfo) (h : HopHint) : Bool :=
  channels.any (fun ch => ch.ChannelID == h.ChannelID && IsPublicNode channels ch.PubKeyBytes)

/-- Following the spec's words (privacy precondition of section 4.4): the
counterparty of a hinted channel is reachable through at least one OTHER
public (non-private) channel in the node's channel set. -/
def specOtherPublicChannel (channels : List ChannelInfo) (hintChannelID counterparty : Nat) : Bool :=
  channels.any (fun c => c.ChannelID != hintChannelID && c.PubKeyBytes == counterparty && !c.Private)

/-! ### Liquidity manager (`src/liquidity/liquidity.go`) -/

/-- Server-provided swap-amount restrictions. -/
structure Restrictions where
  Minimum : Int
  Maximum : Int
deriving DecidableEq, Repr

/-- Balance snapshot handed to a rule (`newBalances`): channel id plus
capacity, incoming (remote) and outgoing (local) balance. -/
structure Balances where
  Channel : Nat
  Capacity : Int
  Incoming : Int
  Outgoing : Int
deriving DecidableEq, Repr

/-- A swap recommendation produced by a rule: channel id and amount. -/
structure LoopOutRecommendation where
  Channel : Nat
  Amount : Int
deriving DecidableEq, Repr

/-- Modelled from the spec: the concrete bound representation of
`ThresholdRule` is not in `src/` and the spec leaves it open (section 9), so a
rule is modelled abstractly by the outcome of its `validate` method (an
optional error code) and by its `suggestSwap` decision function from a
balance snapshot and the server restrictions to an optional recommendation. -/
structure ThresholdRule where
  validateErr : Option Nat
  suggestSwap : Balances → Restrictions → Option LoopOutRecommendation

/-- `rule.validate()` of the source, on the abstract rule model. -/
def ThresholdRule.validate (r : ThresholdRule) : Option Nat := r.validateErr

/-- The Go heap restricted to `*ThresholdRule` allocations: a total map from
pointer names to rule values plus a bump allocator.  Every pointer reachable
from live data is below `next`. -/
structure Mem where
  heap : Nat → ThresholdRule
  next : Nat

/-- Allocate a fresh `*ThresholdRule` holding a copy of `r` (the effect of
`ruleCopy := *rule; &ruleCopy`). -/
def alloc (mem : Mem) (r : ThresholdRule) : Mem × Nat :=
  ({ heap := fun i => if i = mem.next then r else mem.heap i, next := mem.next + 1 },
   mem.next)

/-- Mutate the rule a pointer refers to (what a caller of `GetParameters`
could do to the returned map's rule pointers). -/
def writeRule (mem : Mem) (ptr : Nat) (r : ThresholdRule) : Mem :=
  { mem with heap := fun i => if i = ptr then r else mem.heap i }

/-- `Parameters`: failure backoff (`time.Duration`, nanoseconds), sweep fee
rate limit (`chainfee.SatPerKWeight`), sweep confirmation target, and the
rule map `ChannelRules` as an association list (unique keys, as in a Go map)
from short channel id to a rule pointer. -/
structure Parameters where
  FailureBackOff : Int
  SweepFeeRateLimit : Int
  SweepConfTarget : Int
  ChannelRules : List (Nat × Nat)

/-- `chainfee.AbsoluteFeePerKwFloor` of lnd: 253 sat/kw. -/
def AbsoluteFeePerKwFloor : Int := 253

/-- Errors of the liquidity package; upstream (RPC) failures carry the
backend's error code. -/
inductive Err where
  | zeroChannelID : Err
  | invalidRule : Nat → Nat → Err
  | invalidSweepFeeRateLimit : Err
  | confTargetBelowMinimum : Err
  | upstream : Nat → Err
deriving DecidableEq, Repr

/-- The `for channel, rule := range p.ChannelRules` loop of
`Parameters.validate`: a zero channel id or an invalid rule fails.  (Go map
iteration order is unspecified; the association-list order stands in for it,
which only affects WHICH error of several is reported.) -/
def validateRules (mem : Mem) : List (Nat × Nat) → Option Err
  | [] => none
  | (channel, rulePtr) :: rest =>
    if channel = 0 then some .zeroChannelID
    else
      match (mem.heap rulePtr).validate with
      | some code => some (.invalidRule channel code)
      | none => validateRules mem rest

/-- `Parameters.validate`: rule checks, then the fee-rate floor, then the
minimum confirmation target. -/
def Parameters.validate (p : Parameters) (minConfs : Int) (mem : Mem) : Option Err :=
  match validateRules mem p.ChannelRules with
  | some e => some e
  | none =>
    if p.SweepFeeRateLimit < AbsoluteFeePerKwFloor then some .invalidSweepFeeRateLimit
    else if p.SweepConfTarget < minConfs then some .confTargetBelowMinimum
    else none

/-- The rule-map copy inside `cloneParameters`: for every entry, dereference
the rule, allocate a fresh pointer to the copied value, and rebuild the map. -/
def cloneRules : Mem → List (Nat × Nat) → Mem × List (Nat × Nat)
  | mem, [] => (mem, [])
  | mem, (channel, rulePtr) :: rest =>
    let ruleCopy := mem.heap rulePtr
    let am := alloc mem ruleCopy
    let rec' := cloneRules am.1 rest
    (rec'.1, (channel, am.2) :: rec'.2)

/-- `cloneParameters`: scalar fields are copied by value; the rule map is
rebuilt with freshly allocated rule copies. -/
def cloneParameters (mem : Mem) (params : Parameters) : Mem × Parameters :=
  let cr := cloneRules mem params.ChannelRules
  (cr.1, { params with ChannelRules := cr.2 })

/-- The `Manager`, carrying the configured minimum confirmations
(`cfg.MinimumConfirmations`) and the current parameters. -/
structure Manager where
  MinimumConfirmations : Int
  params : Parameters

/-- `SetParameters`: validate, and only on success store a clone of the new
parameters.  The result is the heap, the manager and the returned error; on a
validation error both heap and manager are returned untouched, mirroring the
early `return err` before any assignment to `m.params`. -/
def SetParameters (mem : Mem) (m : Manager) (params : Parameters) :
    Mem × Manager × Option Err :=
  match params.validate m.MinimumConfirmations mem with
  | some e => (mem, m, some e)
  | none =>
    let cp := cloneParameters mem params
    (cp.1, { m with params := cp.2 }, none)

/-- `GetParameters`: return a clone of the current parameters (the clone
allocates, hence the heap is part of the result). -/
def GetParameters (mem : Mem) (m : Manager) : Mem × Parameters :=
  cloneParameters mem m.params

/-- The observable value of a `Parameters`: its scalar fields and the rule
map with every pointer dereferenced. -/
structure ParamsValue where
  FailureBackOff : Int
  SweepFeeRateLimit : Int
  SweepConfTarget : Int
  ChannelRules : List (Nat × ThresholdRule)

/-- Read a `Parameters` through the heap. -/
def readParams (mem : Mem) (p : Parameters) : ParamsValue :=
  { FailureBackOff := p.FailureBackOff
    SweepFeeRateLimit := p.SweepFeeRateLimit
    SweepConfTarget := p.SweepConfTarget
    ChannelRules := p.ChannelRules.map (fun pr => (pr.1, mem.heap pr.2)) }

/-- All rule pointers of `p` have been allocated (are below the bump
pointer) — an invariant of every `Parameters` built by the Go code. -/
def ptrsValid (mem : Mem) (p : Parameters) : Bool :=
  p.ChannelRules.all (fun pr => pr.2 < mem.next)

/-- Modelled from the spec: the swap states of `loopdb` (not under `src/`).
Section 3 lists pending / temporarily-failed / permanently-failed / succeeded;
section 4.2 treats temporarily-failed records as still holding their channels
(pending type) and the off-chain-payment failure as a terminal state that only
triggers the failure backoff (with section 8's "eligible immediately after"). -/
inductive SwapState where
  | stateInitiated : SwapState
  | stateHtlcPublished : SwapState
  | statePreimageRevealed : SwapState
  | stateSuccess : SwapState
  | stateFailOffchainPayments : SwapState
  | stateFailTimeout : SwapState
  | stateFailTemporary : SwapState
deriving DecidableEq, Repr

/-- Modelled from the spec: the three state types of `loopdb`. -/
inductive SwapStateType where
  | pending : SwapStateType
  | success : SwapStateType
  | fail : SwapStateType
deriving DecidableEq, Repr

/-- Modelled from the spec: `SwapState.Type()`; temporarily-failed swaps are
pending (they may be re-dispatched), the off-chain-payment and timeout
failures are terminal. -/
def SwapState.Type : SwapState → SwapStateType
  | .stateInitiated => .pending
  | .stateHtlcPublished => .pending
  | .statePreimageRevealed => .pending
  | .stateFailTemporary => .pending
  | .stateSuccess => .success
  | .stateFailOffchainPayments => .fail
  | .stateFailTimeout => .fail

/-- A stored loop-out record, reduced to the fields `getEligibleChannels`
reads: `out.State().State`, `out.Contract.OutgoingChanSet` and
`out.LastUpdate().Time` (an instant, in nanoseconds). -/
structure LoopOut where
  State : SwapState
  OutgoingChanSet : List Nat
  LastUpdateTime : Int
deriving DecidableEq, Repr

/-- A stored loop-in record: state and optional last-hop constraint. -/
structure LoopIn where
  State : SwapState
  LastHop : Option Nat
deriving DecidableEq, Repr

/-- The external collaborators of `SuggestSwaps`: fee estimator, server
restrictions, swap-record listings, channel listing and the clock. -/
structure LiquidityEnv where
  EstimateFee : Int → Except Nat Int
  LoopOutRestrictions : Except Nat Restrictions
  ListLoopOut : Except Nat (List LoopOut)
  ListLoopIn : Except Nat (List LoopIn)
  ListChannels : Except Nat (List ChannelInfo)
  Now : Int

/-- The `for _, out := range loopOut` loop of `getEligibleChannels`:
accumulates the recently-failed channel set and the in-use channel set, and
short-circuits (`return nil, nil`, modelled as `none`) on a pending record
with an empty channel set.  Failure marking happens before the pending check,
exactly as in the source. -/
def processLoopOut (failureCutoff : Int) :
    List LoopOut → List Nat → List Nat → Option (List Nat × List Nat)
  | [], failedOut, existingOut => some (failedOut, existingOut)
  | out :: rest, failedOut, existingOut =>
    let failedOut' :=
      if out.State = SwapState.stateFailOffchainPayments ∧
          failureCutoff < out.LastUpdateTime then
        failedOut ++ out.OutgoingChanSet
      else failedOut
    if out.State.Type ≠ SwapStateType.pending then
      processLoopOut failureCutoff rest failedOut' existingOut
    else if out.OutgoingChanSet = [] then none
    else processLoopOut failureCutoff rest failedOut' (existingOut ++ out.OutgoingChanSet)

/-- The `for _, in := range loopIn` loop: accumulates the in-use peer set and
short-circuits on a pending record without a last-hop constraint. -/
def processLoopIn : List LoopIn → List Nat → Option (List Nat)
  | [], existingIn => some existingIn
  | inn :: rest, existingIn =>
    if inn.State.Type ≠ SwapStateType.pending then processLoopIn rest existingIn
    else
      match inn.LastHop with
      | none => none
      | some hop => processLoopIn rest (existingIn ++ [hop])

/-- `getEligibleChannels`: compute the failure cutoff, scan the swap records
(possibly short-circuiting to an empty eligible set), list the channels and
filter out recently-failed, in-use-for-loop-out and peer-in-use-for-loop-in
channels.  `lnwire.NewShortChanIDFromInt` is a bijection on the uint64 id and
is modelled as the identity. -/
def getEligibleChannels (m : Manager) (env : LiquidityEnv)
    (loopOut : List LoopOut) (loopIn : List LoopIn) :
    Except Err (List ChannelInfo) :=
  let failureCutoff := env.Now - m.params.FailureBackOff
  match processLoopOut failureCutoff loopOut [] [] with
  | none => .ok []
  | some fe =>
    match processLoopIn loopIn [] with
    | none => .ok []
    | some existingIn =>
      match env.ListChannels with
      | .error e => .error (.upstream e)
      | .ok channels =>
        .ok (channels.filter (fun channel =>
          !fe.1.contains channel.ChannelID &&
          !fe.2.contains channel.ChannelID &&
          !existingIn.contains channel.PubKeyBytes))

/-- `FeeBase` and the default fee constants of the package. -/
def FeeBase : Nat := 1000000

def defaultSwapFeePPM : Int := 5000

def defaultRoutingFeePPM : Int := 10000

def defaultPrepayRoutingFeePPM : Int := 5000

def defaultMaximumMinerFee : Int := 15000

def defaultMaximumPrepay : Int := 30000

/-- `ppmToSat`: `btcutil.Amount(uint64(amount) * uint64(ppm) / FeeBase)`,
with the uint64 multiplication wrapping made explicit. -/
def ppmToSat (amount : Int) (ppm : Int) : Int :=
  i64 (u64 amount * u64 ppm % 2 ^ 64 / FeeBase)

/-- `newBalances` (of the loop repository's balances helper): package a
channel's balances for a rule. -/
def newBalances (channel : ChannelInfo) : Balances :=
  { Channel := channel.ChannelID
    Capacity := channel.Capacity
    Incoming := channel.RemoteBalance
    Outgoing := channel.LocalBalance }

/-- A loop-out request as assembled by `makeLoopOutRequest`. -/
structure OutRequest where
  Amount : Int
  OutgoingChanSet : List Nat
  MaxPrepayRoutingFee : Int
  MaxSwapRoutingFee : Int
  MaxMinerFee : Int
  MaxSwapFee : Int
  MaxPrepayAmount : Int
  SweepConfTarget : Int
deriving DecidableEq, Repr

/-- `makeLoopOutRequest`: fee budgets from the default ppm constants, conf
target from the current parameters. -/
def makeLoopOutRequest (m : Manager) (suggestion : LoopOutRecommendation) : OutRequest :=
  { Amount := suggestion.Amount
    OutgoingChanSet := [suggestion.Channel]
    MaxPrepayRoutingFee := ppmToSat defaultMaximumPrepay defaultPrepayRoutingFeePPM
    MaxSwapRoutingFee := ppmToSat suggestion.Amount defaultRoutingFeePPM
    MaxMinerFee := defaultMaximumMinerFee
    MaxSwapFee := ppmToSat suggestion.Amount defaultSwapFeePPM
    MaxPrepayAmount := defaultMaximumPrepay
    SweepConfTarget := m.params.SweepConfTarget }

/-- The `for _, channel := range eligible` loop of `SuggestSwaps`: look up the
channel's rule (skip when absent), evaluate it on the balances and
restrictions, and turn non-nil recommendations into requests in order. -/
def suggestLoop (mem : Mem) (m : Manager) (outRestrictions : Restrictions) :
    List ChannelInfo → List OutRequest
  | [] => []
  | channel :: rest =>
    match m.params.ChannelRules.find? (fun pr => pr.1 == channel.ChannelID) with
    | none => suggestLoop mem m outRestrictions rest
    | some pr =>
      match (mem.heap pr.2).suggestSwap (newBalances channel) outRestrictions with
      | none => suggestLoop mem m outRestrictions rest
      | some suggestion =>
        makeLoopOutRequest m suggestion :: suggestLoop mem m outRestrictions rest

/-- `SuggestSwaps`: empty-rules early exit, fee circuit breaker, restriction
and record fetches, eligibility filtering, then the per-channel rule loop. -/
def SuggestSwaps (mem : Mem) (m : Manager) (env : LiquidityEnv) :
    Except Err (List OutRequest) :=
  if m.params.ChannelRules = [] then .ok []
  else
    match env.EstimateFee m.params.SweepConfTarget with
    | .error e => .error (.upstream e)
    | .ok estimate =>
      if estimate > m.params.SweepFeeRateLimit then .ok []
      else
        match env.LoopOutRestrictions with
        | .error e => .error (.upstream e)
        | .ok outRestrictions =>
          match env.ListLoopOut with
          | .error e => .error (.upstream e)
          | .ok loopOut =>
            match env.ListLoopIn with
            | .error e => .error (.upstream e)
            | .ok loopIn =>
              match getEligibleChannels m env loopOut loopIn with
              | .error e => .error e
              | .ok eligible => .ok (suggestLoop mem m outRestrictions eligible)

/-! ### Concrete instances used by counterexamples and witnesses -/

/-- Length of a successfully returned hint list. -/
def selResLen : SelRes (List (List HopHint)) → Option Nat
  | .ok l => some l.length
  | _ => none

/-- A policy pair with distinguishable fee fields. -/
def polA : RoutingPolicy := { FeeBaseMsat := 111, FeeRateMilliMsat := 5, TimeLockDelta := 40 }

def polB : RoutingPolicy := { FeeBaseMsat := 222, FeeRateMilliMsat := 7, TimeLockDelta := 80 }

/-- Two public channels, both with remote balance 150. -/
def chanA1 : ChannelInfo :=
  { ChannelID := 1, PubKeyBytes := 10, Private := false
    RemoteBalance := 150, LocalBalance := 0, Capacity := 300 }

def chanB1 : ChannelInfo :=
  { ChannelID := 2, PubKeyBytes := 20, Private := false
    RemoteBalance := 150, LocalBalance := 0, Capacity := 300 }

def edgeFor (node1 : Nat) (cp : String) : ChannelEdge :=
  { Node1 := node1, Node1Policy := some polA, Node2Policy := some polB, ChannelPoint := cp }

/-- Environment with two qualifying channels. -/
def cenv1 : LndEnv :=
  { ListChannels := .ok [chanA1, chanB1]
    GetChanInfo := fun id => if id = 1 then (some (edgeFor 10 "cp1"), none)
                             else (some (edgeFor 20 "cp2"), none)
    ParsePubKey := fun pk => .ok pk }

/-- Environment with a single channel whose remote balance is below the
requested amount (so the first pass selects nothing). -/
def cenv2 : LndEnv :=
  { ListChannels := .ok [{ ChannelID := 3, PubKeyBytes := 11, Private := false
                           RemoteBalance := 50, LocalBalance := 0, Capacity := 100 }]
    GetChanInfo := fun _ => (some (edgeFor 11 "cp3"), none)
    ParsePubKey := fun pk => .ok pk }

/-- A single public channel whose counterparty (key 42) has no other channel
at all; the edge's node 1 is the counterparty, so the two edge policies are
distinguishable sides. -/
def chanD : ChannelInfo :=
  { ChannelID := 5, PubKeyBytes := 42, Private := false
    RemoteBalance := 150, LocalBalance := 0, Capacity := 300 }

def cenv3 : LndEnv :=
  { ListChannels := .ok [chanD]
    GetChanInfo := fun _ => (some (edgeFor 42 "cp5"), none)
    ParsePubKey := fun pk => .ok pk }

/-- The hint produced for `chanD` by `cenv3`. -/
def hintD : HopHint :=
  { NodeID := 42, ChannelID := 5, FeeBaseMSat := 222,
    FeeProportionalMillionths := 7, CLTVExpiryDelta := 80 }

/-- Phase-1 key-resolution failure: one qualifying channel, key parse fails. -/
def cenv10a : LndEnv :=
  { ListChannels := .ok [{ ChannelID := 6, PubKeyBytes := 30, Private := false
                           RemoteBalance := 150, LocalBalance := 0, Capacity := 300 }]
    GetChanInfo := fun _ => (some (edgeFor 30 "cp6"), none)
    ParsePubKey := fun _ => .error 7 }

/-- One channel selected by the first pass and one low-balance channel whose
key would fail to resolve in the second pass. -/
def chanF : ChannelInfo :=
  { ChannelID := 7, PubKeyBytes := 40, Private := false
    RemoteBalance := 100, LocalBalance := 0, Capacity := 300 }

def chanG : ChannelInfo :=
  { ChannelID := 8, PubKeyBytes := 50, Private := false
    RemoteBalance := 50, LocalBalance := 0, Capacity := 300 }

def cenv10b : LndEnv :=
  { ListChannels := .ok [chanF, chanG]
    GetChanInfo := fun id => if id = 7 then (some (edgeFor 40 "cp7"), none)
                             else (some (edgeFor 50 "cp8"), none)
    ParsePubKey := fun pk => if pk = 50 then .error 9 else .ok pk }

/-! ### Concrete liquidity-manager instances for counterexamples and witnesses -/

/-- A rule that validates successfully and suggests nothing. -/
def okRule : ThresholdRule := { validateErr := none, suggestSwap := fun _ _ => none }

/-- A heap of `okRule` cells with one allocated pointer. -/
def cW_mem : Mem := { heap := fun _ => okRule, next := 1 }

def cW_m : Manager :=
  { MinimumConfirmations := 1
    params := { FailureBackOff := 0, SweepFeeRateLimit := 253, SweepConfTarget := 2,
                ChannelRules := [] } }

/-- Parameters with a zero channel-id key. -/
def cW_badP : Parameters :=
  { FailureBackOff := 10, SweepFeeRateLimit := 300, SweepConfTarget := 3,
    ChannelRules := [(0, 0)] }

/-- A liquidity environment with a high fee estimate. -/
def cW_envFee : LiquidityEnv :=
  { EstimateFee := fun _ => .ok 1000
    LoopOutRestrictions := .ok { Minimum := 1, Maximum := 1000000 }
    ListLoopOut := .ok []
    ListLoopIn := .ok []
    ListChannels := .ok []
    Now := 0 }

/-- A manager with one configured rule at channel 5 (pointer 0). -/
def cW_m5 : Manager :=
  { MinimumConfirmations := 1
    params := { FailureBackOff := 100, SweepFeeRateLimit := 300, SweepConfTarget := 2,
                ChannelRules := [(5, 0)] } }

/-- A pending unrestricted loop-out record. -/
def cW_outUnrestricted : LoopOut :=
  { State := SwapState.stateInitiated, OutgoingChanSet := [], LastUpdateTime := 0 }

def cW_envUnres : LiquidityEnv :=
  { EstimateFee := fun _ => .ok 100
    LoopOutRestrictions := .ok { Minimum := 1, Maximum := 1000000 }
    ListLoopOut := .ok [cW_outUnrestricted]
    ListLoopIn := .ok []
    ListChannels := .ok [chanA1]
    Now := 0 }

/-- A loop-out record that failed off-chain at time 100 over channel 1. -/
def cW_out7 : LoopOut :=
  { State := SwapState.stateFailOffchainPayments, OutgoingChanSet := [1], LastUpdateTime := 100 }

def cW_m7 : Manager :=
  { MinimumConfirmations := 1
    params := { FailureBackOff := 50, SweepFeeRateLimit := 300, SweepConfTarget := 2,
                ChannelRules := [(1, 0)] } }

/-- Clock inside the backoff window (120 < 100 + 50). -/
def cW_envA : LiquidityEnv :=
  { EstimateFee := fun _ => .ok 100
    LoopOutRestrictions := .ok { Minimum := 1, Maximum := 1000000 }
    ListLoopOut := .ok [cW_out7]
    ListLoopIn := .ok []
    ListChannels := .ok [chanA1]
    Now := 120 }

/-- Clock exactly at the end of the backoff window (150 = 100 + 50). -/
def cW_envB : LiquidityEnv :=
  { cW_envA with Now := 150 }

/-- Parameters with one valid rule at channel 5 (pointer 0). -/
def cW_p8 : Parameters :=
  { FailureBackOff := 10, SweepFeeRateLimit := 300, SweepConfTarget := 3,
    ChannelRules := [(5, 0)] }

/-- A different rule value, used to mutate a returned rule pointer. -/
def otherRule : ThresholdRule := { validateErr := some 3, suggestSwap := fun _ _ => none }

/-! ### Theorems: hop-hint selection claims -/

lemma chanCanBeHopHint_isPublic (env : LndEnv) (channels : List ChannelInfo)
    (channel : ChannelInfo) (ci : Option ChannelEdge) (p : Option RoutingPolicy)
    (h : chanCanBeHopHint env channels channel ci = .ok (p, true)) :
    IsPublicNode channels channel.PubKeyBytes = true := by
  cases hpub : IsPublicNode channels channel.PubKeyBytes
  · simp only [chanCanBeHopHint, hpub] at h
    simp at h
  · rfl

lemma phase2_none_ok (env : LndEnv) (amt : Int) (nmax : Nat)
    (openChannels rest : List ChannelInfo) (hints : List (List HopHint))
    (hhc : List String) (total : Int) (l : List (List HopHint))
    (h : selectHopHintsPhase2 env amt nmax openChannels none rest hints hhc total = .ok l) :
    l = hints := by
  cases rest with
  | nil =>
    simp only [selectHopHintsPhase2] at h
    exact (SelRes.ok.inj h).symm
  | cons c cs =>
    simp only [selectHopHintsPhase2] at h
    split at h
    · exact (SelRes.ok.inj h).symm
    · simp at h

lemma selectHopHints_ok_imp_phase1 (env : LndEnv) (amt : Int) (nmax : Nat)
    (incl : Option (List Nat)) (l : List (List HopHint))
    (h : SelectHopHints env amt nmax incl = .ok l) :
    selResHints (phase1Result env amt incl) = .ok l := by
  unfold SelectHopHints at h
  unfold phase1Result
  cases hlc : env.ListChannels with
  | error e => rw [hlc] at h; simp at h
  | ok openChannels =>
    rw [hlc] at h
    dsimp only at h ⊢
    cases hp1 : selectHopHintsPhase1 env amt incl openChannels openChannels [] [] 0 with
    | panic => rw [hp1] at h; simp at h
    | err e => rw [hp1] at h; simp at h
    | ok t =>
      obtain ⟨hints, hhc, total⟩ := t
      rw [hp1] at h
      simp only [selResHints]
      dsimp only at h
      split at h
      · exact h
      · rw [phase2_none_ok _ _ _ _ _ _ _ _ _ h]

lemma phase1_hints_public (env : LndEnv) (amt : Int) (incl : Option (List Nat))
    (openChannels : List ChannelInfo) (rest : List ChannelInfo) :
    ∀ (hints : List (List HopHint)) (hhc : List String) (total : Int)
      (l : List (List HopHint)) (c : List String) (t : Int),
      (∀ ch ∈ rest, ch ∈ openChannels) →
      (∀ g ∈ hints, ∀ h ∈ g, hintFromPublicChannel openChannels h = true) →
      selectHopHintsPhase1 env amt incl openChannels rest hints hhc total = .ok (l, c, t) →
      ∀ g ∈ l, ∀ h ∈ g, hintFromPublicChannel openChannels h = true := by
  induction rest with
  | nil =>
    intro hints hhc total l c t _ hacc heq
    simp only [selectHopHintsPhase1, SelRes.ok.injEq, Prod.mk.injEq] at heq
    obtain ⟨hl, -, -⟩ := heq
    exact hl ▸ hacc
  | cons channel rest ih =>
    intro hints hhc total l c t hsub hacc heq
    have hsub' : ∀ ch ∈ rest, ch ∈ openChannels :=
      fun ch hm => hsub ch (List.mem_cons_of_mem _ hm)
    have hchan : channel ∈ openChannels := hsub channel (List.mem_cons_self _ _)
    simp only [selectHopHintsPhase1] at heq
    by_cases hbal : channel.RemoteBalance < amt
    · rw [if_pos hbal] at heq
      exact ih _ _ _ _ _ _ hsub' hacc heq
    · rw [if_neg hbal] at heq
      by_cases hincl : includeNodesSkip incl channel.PubKeyBytes = true
      · rw [if_pos hincl] at heq
        exact ih _ _ _ _ _ _ hsub' hacc heq
      · rw [if_neg hincl] at heq
        cases hget : env.GetChanInfo channel.ChannelID with
        | mk ptr1 e1 =>
          rw [hget] at heq
          cases e1 with
          | some e => simp at heq
          | none =>
            dsimp only at heq
            cases hcbe : chanCanBeHopHint env openChannels channel ptr1 with
            | panic => rw [hcbe] at heq; simp at heq
            | err e => rw [hcbe] at heq; simp at heq
            | ok pr =>
              obtain ⟨edgePolicy, canBe⟩ := pr
              rw [hcbe] at heq
              dsimp only at heq
              by_cases hcond : (edgePolicy.isNone || !canBe) = true
              · rw [if_pos hcond] at heq
                exact ih _ _ _ _ _ _ hsub' hacc heq
              · rw [if_neg hcond] at heq
                cases hpp : env.ParsePubKey channel.PubKeyBytes with
                | error e => rw [hpp] at heq; simp at heq
                | ok nodeID =>
                  rw [hpp] at heq
                  dsimp only at heq
                  cases ptr1 with
                  | none => simp at heq
                  | some ci2 =>
                    dsimp only at heq
                    cases hpol : ci2.Node2Policy with
                    | none => rw [hpol] at heq; simp at heq
                    | some pol =>
                      rw [hpol] at heq
                      dsimp only at heq
                      refine ih _ _ _ _ _ _ hsub' ?_ heq
                      intro g hg
                      rcases List.mem_append.mp hg with hg1 | hg1
                      · exact hacc g hg1
                      · have hcanBe : canBe = true := by
                          cases canBe
                          · exact absurd (by simp) hcond
                          · rfl
                        rw [hcanBe] at hcbe
                        have hpub := chanCanBeHopHint_isPublic _ _ _ _ _ hcbe
                        have hgeq : g =
                            [({ NodeID := nodeID, ChannelID := channel.ChannelID,
                                FeeBaseMSat := u32 pol.FeeBaseMsat,
                                FeeProportionalMillionths := u32 pol.FeeRateMilliMsat,
                                CLTVExpiryDelta := u16 pol.TimeLockDelta } : HopHint)] := by
                          simpa using hg1
                        subst hgeq
                        intro h hh
                        have hheq := List.mem_singleton.mp hh
                        subst hheq
                        simp only [hintFromPublicChannel, List.any_eq_true]
                        exact ⟨channel, hchan, by simp [hpub]⟩


/-- C1 counterexample: with `maxHints = 1` and two qualifying channels, the
first pass emits two hints and `SelectHopHints` returns both. -/
theorem selectHopHints_maxHints_counterexample :
    selResLen (SelectHopHints cenv1 100 1 none) = some 2 := by decide

/-- C1 (amended): the list `SelectHopHints` returns successfully is exactly
the first pass's hint list (one hint per qualifying channel, not capped at
`numMaxHophints`); the second pass never contributes a hint. -/
theorem selectHopHints_result_exactly_phase1 (env : LndEnv) (amt : Int) (nmax : Nat)
    (incl : Option (List Nat)) (l : List (List HopHint))
    (h : SelectHopHints env amt nmax incl = .ok l) :
    selResHints (phase1Result env amt incl) = .ok l :=
  selectHopHints_ok_imp_phase1 env amt nmax incl l h

/-- Witness for `selectHopHints_result_exactly_phase1`. -/
theorem selectHopHints_result_exactly_phase1_witness :
    selResHints (phase1Result cenv1 100 none) =
      .ok [[({ NodeID := 10, ChannelID := 1, FeeBaseMSat := 222,
               FeeProportionalMillionths := 7, CLTVExpiryDelta := 80 } : HopHint)],
           [({ NodeID := 20, ChannelID := 2, FeeBaseMSat := 222,
               FeeProportionalMillionths := 7, CLTVExpiryDelta := 80 } : HopHint)]] :=
  selectHopHints_result_exactly_phase1 cenv1 100 1 none _ (by decide)

/-- C2: when the first pass under-fills the hint list, channels remain, and
the accumulated bandwidth does not exceed twice the requested amount, the
second pass dereferences the still-nil outer `chanInfo` pointer and
`SelectHopHints` panics instead of returning. -/
theorem selectHopHints_phase2_nil_deref (env : LndEnv) (amt : Int) (nmax : Nat)
    (incl : Option (List Nat)) (openChannels : List ChannelInfo)
    (hints : List (List HopHint)) (hhc : List String) (total : Int)
    (hlist : env.ListChannels = .ok openChannels)
    (hp1 : selectHopHintsPhase1 env amt incl openChannels openChannels [] [] 0 =
      .ok (hints, hhc, total))
    (hlt : hints.length < nmax)
    (hne : openChannels ≠ [])
    (hbw : ¬ total > i64mul amt hopHintFactor) :
    SelectHopHints env amt nmax incl = .panic := by
  unfold SelectHopHints
  rw [hlist]
  dsimp only
  rw [hp1]
  dsimp only
  rw [if_neg (by omega : ¬ hints.length ≥ nmax)]
  cases openChannels with
  | nil => exact absurd rfl hne
  | cons c cs =>
    simp only [selectHopHintsPhase2]
    rw [if_neg (by
      simp only [Bool.or_eq_true, decide_eq_true_eq, not_or]
      exact ⟨hbw, by omega⟩)]

/-- Witness for `selectHopHints_phase2_nil_deref`. -/
theorem selectHopHints_phase2_nil_deref_witness :
    SelectHopHints cenv2 100 1 none = .panic :=
  selectHopHints_phase2_nil_deref cenv2 100 1 none
    [{ ChannelID := 3, PubKeyBytes := 11, Private := false,
       RemoteBalance := 50, LocalBalance := 0, Capacity := 100 }]
    [] [] 0 rfl (by decide) (by decide) (by decide) (by decide)


/-- C3 counterexample: a counterparty (key 42) whose only channel is the
hinted channel itself is hinted, although it is not reachable through any
OTHER public channel of the node's channel set. -/
theorem selectHopHints_otherPublic_counterexample :
    SelectHopHints cenv3 100 1 none =
      .ok [[({ NodeID := 42, ChannelID := 5, FeeBaseMSat := 222,
               FeeProportionalMillionths := 7, CLTVExpiryDelta := 80 } : HopHint)]]
    ∧ specOtherPublicChannel [chanD] 5 42 = false :=
  ⟨by decide, by decide⟩

/-- C3 (amended): every hint `SelectHopHints` returns comes from an open
channel whose counterparty passes `IsPublicNode`, i.e. no channel to that
counterparty anywhere in the node's channel set is private. -/
theorem selectHopHints_hints_public (env : LndEnv) (amt : Int) (nmax : Nat)
    (incl : Option (List Nat)) (openChannels : List ChannelInfo) (l : List (List HopHint))
    (hlist : env.ListChannels = .ok openChannels)
    (hok : SelectHopHints env amt nmax incl = .ok l) :
    ∀ g ∈ l, ∀ h ∈ g, hintFromPublicChannel openChannels h = true := by
  have h1 := selectHopHints_ok_imp_phase1 env amt nmax incl l hok
  unfold phase1Result at h1
  rw [hlist] at h1
  dsimp only at h1
  cases hp1 : selectHopHintsPhase1 env amt incl openChannels openChannels [] [] 0 with
  | panic => rw [hp1] at h1; simp [selResHints] at h1
  | err e => rw [hp1] at h1; simp [selResHints] at h1
  | ok t =>
    obtain ⟨hints, hhc, total⟩ := t
    rw [hp1] at h1
    simp only [selResHints, SelRes.ok.injEq] at h1
    subst h1
    exact phase1_hints_public env amt incl openChannels openChannels _ _ _ _ _ _
      (fun ch hm => hm) (by simp) hp1

/-- Witness for `selectHopHints_hints_public`. -/
theorem selectHopHints_hints_public_witness :
    hintFromPublicChannel [chanD] hintD = true :=
  selectHopHints_hints_public cenv3 100 1 none [chanD] [[hintD]] rfl (by decide)
    [hintD] (by decide) hintD (by decide)

/-- C9: the counterparty-side policy of the hinted channel is `polA`
(first conjunct: `chanCanBeHopHint` computes it), but the emitted hint's fee
fields are populated from `Node2Policy` (`polB`) instead. -/
theorem selectHopHints_node2_policy_bug :
    chanCanBeHopHint cenv3 [chanD] chanD none = .ok (some polA, true)
    ∧ SelectHopHints cenv3 100 1 none =
        .ok [[({ NodeID := 42, ChannelID := 5, FeeBaseMSat := u32 polB.FeeBaseMsat,
                 FeeProportionalMillionths := u32 polB.FeeRateMilliMsat,
                 CLTVExpiryDelta := u16 polB.TimeLockDelta } : HopHint)]]
    ∧ u32 polB.FeeBaseMsat ≠ u32 polA.FeeBaseMsat :=
  ⟨by decide, by decide, by decide⟩

/-- C10: a key-resolution failure in the first pass aborts the whole
selection with the error, while in the second pass the call panics on the
nil `chanInfo` dereference before any key resolution, so the collected
hints are never returned. -/
theorem selectHopHints_phase_error_handling :
    SelectHopHints cenv10a 100 5 none = .err 7
    ∧ SelectHopHints cenv10b 100 5 none = .panic :=
  ⟨by decide, by decide⟩

/-! ### Theorems: liquidity-manager claims -/

lemma validateRules_none (mem : Mem) (rules : List (Nat × Nat))
    (h : validateRules mem rules = none) :
    ∀ pr ∈ rules, pr.1 ≠ 0 ∧ (mem.heap pr.2).validateErr = none := by
  induction rules with
  | nil => intro pr hpr; simp at hpr
  | cons r rest ih =>
    intro pr hpr
    obtain ⟨channel, ptr⟩ := r
    simp only [validateRules] at h
    split at h
    · simp at h
    · rename_i hch
      cases hv : (mem.heap ptr).validate with
      | some code => rw [hv] at h; simp at h
      | none =>
        rw [hv] at h
        rcases List.mem_cons.mp hpr with rfl | hpr'
        · exact ⟨hch, hv⟩
        · exact ih h pr hpr'

lemma validate_none_facts (p : Parameters) (minConfs : Int) (mem : Mem)
    (h : p.validate minConfs mem = none) :
    (∀ pr ∈ p.ChannelRules, pr.1 ≠ 0 ∧ (mem.heap pr.2).validateErr = none)
    ∧ AbsoluteFeePerKwFloor ≤ p.SweepFeeRateLimit ∧ minConfs ≤ p.SweepConfTarget := by
  unfold Parameters.validate at h
  cases hvr : validateRules mem p.ChannelRules with
  | some e => rw [hvr] at h; simp at h
  | none =>
    rw [hvr] at h
    dsimp only at h
    split at h
    · simp at h
    · split at h
      · simp at h
      · exact ⟨validateRules_none mem _ hvr, by omega, by omega⟩

/-- C4: a zero channel-id key, an invalid rule, a sub-floor sweep fee limit or
a sub-minimum confirmation target makes `SetParameters` return an error and
leave the heap and the manager (hence the stored parameters) untouched. -/
theorem setParameters_invalid_rejected (mem : Mem) (m : Manager) (p : Parameters)
    (h : (∃ pr ∈ p.ChannelRules, pr.1 = 0)
       ∨ (∃ pr ∈ p.ChannelRules, (mem.heap pr.2).validateErr ≠ none)
       ∨ p.SweepFeeRateLimit < AbsoluteFeePerKwFloor
       ∨ p.SweepConfTarget < m.MinimumConfirmations) :
    (SetParameters mem m p).2.2 ≠ none
    ∧ (SetParameters mem m p).1 = mem
    ∧ (SetParameters mem m p).2.1 = m := by
  cases hv : p.validate m.MinimumConfirmations mem with
  | some e =>
    refine ⟨?_, ?_, ?_⟩ <;> simp [SetParameters, hv]
  | none =>
    exfalso
    obtain ⟨hrules, hfee, hconf⟩ := validate_none_facts p m.MinimumConfirmations mem hv
    rcases h with ⟨pr, hpr, h0⟩ | ⟨pr, hpr, hbad⟩ | hf | hc
    · exact (hrules pr hpr).1 h0
    · exact hbad (hrules pr hpr).2
    · omega
    · omega

/-- Witness for `setParameters_invalid_rejected`. -/
theorem setParameters_invalid_rejected_witness :
    (SetParameters cW_mem cW_m cW_badP).2.2 ≠ none
    ∧ (SetParameters cW_mem cW_m cW_badP).1 = cW_mem
    ∧ (SetParameters cW_mem cW_m cW_badP).2.1 = cW_m :=
  setParameters_invalid_rejected cW_mem cW_m cW_badP
    (Or.inl (Exists.intro ((0 : Nat), (0 : Nat)) ⟨by decide, rfl⟩))

/-- C5: when the fee estimate for the configured conf target succeeds and
exceeds the sweep fee rate limit, `SuggestSwaps` returns an empty list and no
error. -/
theorem suggestSwaps_fee_limit_empty (mem : Mem) (m : Manager) (env : LiquidityEnv) (est : Int)
    (hfee : env.EstimateFee m.params.SweepConfTarget = .ok est)
    (hgt : est > m.params.SweepFeeRateLimit) :
    SuggestSwaps mem m env = .ok [] := by
  unfold SuggestSwaps
  by_cases hr : m.params.ChannelRules = []
  · rw [if_pos hr]
  · rw [if_neg hr, hfee]
    dsimp only
    rw [if_pos hgt]

/-- Witness for `suggestSwaps_fee_limit_empty`. -/
theorem suggestSwaps_fee_limit_empty_witness :
    SuggestSwaps cW_mem cW_m5 cW_envFee = .ok [] :=
  suggestSwaps_fee_limit_empty cW_mem cW_m5 cW_envFee 1000 rfl (by decide)

lemma processLoopOut_unrestricted (cutoff : Int) :
    ∀ (outs : List LoopOut),
      (∃ out ∈ outs, out.State.Type = SwapStateType.pending ∧ out.OutgoingChanSet = []) →
      ∀ f e, processLoopOut cutoff outs f e = none := by
  intro outs
  induction outs with
  | nil => intro h; simp at h
  | cons o rest ih =>
    intro h f e
    obtain ⟨out, hmem, hpend, hempty⟩ := h
    simp only [processLoopOut]
    rcases List.mem_cons.mp hmem with rfl | hmem'
    · rw [if_neg (by simp [hpend])]
      rw [if_pos hempty]
    · split
      · exact ih ⟨out, hmem', hpend, hempty⟩ _ _
      · split
        · rfl
        · exact ih ⟨out, hmem', hpend, hempty⟩ _ _

lemma processLoopIn_unrestricted :
    ∀ (ins : List LoopIn),
      (∃ inn ∈ ins, inn.State.Type = SwapStateType.pending ∧ inn.LastHop = none) →
      ∀ e, processLoopIn ins e = none := by
  intro ins
  induction ins with
  | nil => intro h; simp at h
  | cons i rest ih =>
    intro h e
    obtain ⟨inn, hmem, hpend, hnone⟩ := h
    simp only [processLoopIn]
    rcases List.mem_cons.mp hmem with rfl | hmem'
    · rw [if_neg (by simp [hpend]), hnone]
    · split
      · exact ih ⟨inn, hmem', hpend, hnone⟩ _
      · split
        · rfl
        · exact ih ⟨inn, hmem', hpend, hnone⟩ _

/-- C6: a pending loop-out record with an empty outgoing channel set, or a
pending loop-in record without a last-hop constraint, makes `SuggestSwaps`
return an empty list and no error (all upstream calls succeeding), whatever
rules are configured. -/
theorem suggestSwaps_unrestricted_empty (mem : Mem) (m : Manager) (env : LiquidityEnv)
    (est : Int) (r : Restrictions) (outs : List LoopOut) (ins : List LoopIn)
    (hfee : env.EstimateFee m.params.SweepConfTarget = .ok est)
    (hres : env.LoopOutRestrictions = .ok r)
    (hout : env.ListLoopOut = .ok outs)
    (hin : env.ListLoopIn = .ok ins)
    (hunres :
      (∃ out ∈ outs, out.State.Type = SwapStateType.pending ∧ out.OutgoingChanSet = [])
      ∨ (∃ inn ∈ ins, inn.State.Type = SwapStateType.pending ∧ inn.LastHop = none)) :
    SuggestSwaps mem m env = .ok [] := by
  unfold SuggestSwaps
  by_cases hr0 : m.params.ChannelRules = []
  · rw [if_pos hr0]
  · rw [if_neg hr0, hfee]
    dsimp only
    by_cases hest : est > m.params.SweepFeeRateLimit
    · rw [if_pos hest]
    · rw [if_neg hest, hres, hout, hin]
      dsimp only
      have helig : getEligibleChannels m env outs ins = .ok [] := by
        unfold getEligibleChannels
        dsimp only
        rcases hunres with hcase | hcase
        · rw [processLoopOut_unrestricted _ _ hcase _ _]
        · cases hpo : processLoopOut (env.Now - m.params.FailureBackOff) outs [] [] with
          | none => rfl
          | some fe =>
            rw [processLoopIn_unrestricted _ hcase _]
      rw [helig]
      rfl

/-- Witness for `suggestSwaps_unrestricted_empty`. -/
theorem suggestSwaps_unrestricted_empty_witness :
    SuggestSwaps cW_mem cW_m5 cW_envUnres = .ok [] :=
  suggestSwaps_unrestricted_empty cW_mem cW_m5 cW_envUnres 100
    { Minimum := 1, Maximum := 1000000 } [cW_outUnrestricted] []
    rfl rfl rfl rfl
    (Or.inl (Exists.intro cW_outUnrestricted ⟨by decide, by decide, rfl⟩))

lemma processLoopOut_failed_mono (cutoff : Int) :
    ∀ (outs : List LoopOut) (f e F E : List Nat),
      processLoopOut cutoff outs f e = some (F, E) → ∀ x ∈ f, x ∈ F := by
  intro outs
  induction outs with
  | nil =>
    intro f e F E h x hx
    simp only [processLoopOut, Option.some.injEq, Prod.mk.injEq] at h
    exact h.1 ▸ hx
  | cons o rest ih =>
    intro f e F E h x hx
    simp only [processLoopOut] at h
    split at h
    · refine ih _ _ _ _ h x ?_
      split
      · exact List.mem_append_left _ hx
      · exact hx
    · split at h
      · simp at h
      · refine ih _ _ _ _ h x ?_
        split
        · exact List.mem_append_left _ hx
        · exact hx

lemma processLoopOut_marks (cutoff : Int) (out : LoopOut) (c : Nat)
    (hstate : out.State = SwapState.stateFailOffchainPayments)
    (htime : cutoff < out.LastUpdateTime)
    (hc : c ∈ out.OutgoingChanSet) :
    ∀ (outs : List LoopOut) (f e F E : List Nat),
      out ∈ outs → processLoopOut cutoff outs f e = some (F, E) → c ∈ F := by
  intro outs
  induction outs with
  | nil => intro f e F E hmem; simp at hmem
  | cons o rest ih =>
    intro f e F E hmem h
    simp only [processLoopOut] at h
    rcases List.mem_cons.mp hmem with rfl | hmem'
    · have houter : out.State.Type ≠ SwapStateType.pending := by rw [hstate]; decide
      have hmark : out.State = SwapState.stateFailOffchainPayments ∧
          cutoff < out.LastUpdateTime := ⟨hstate, htime⟩
      rw [if_pos houter, if_pos hmark] at h
      exact processLoopOut_failed_mono cutoff rest _ _ _ _ h c (List.mem_append_right _ hc)
    · split at h
      · exact ih _ _ _ _ hmem' h
      · split at h
        · simp at h
        · exact ih _ _ _ _ hmem' h

/-- C7: a channel in the channel set of a loop-out record that failed with
off-chain payments at time T is not eligible while `now < T + FailureBackOff`,
and eligible again as soon as `T + FailureBackOff ≤ now` (second conjunct: a
single such record and no other exclusion reason). -/
theorem getEligibleChannels_failure_backoff
    (m : Manager) (env : LiquidityEnv) (outs : List LoopOut) (ins : List LoopIn)
    (out : LoopOut) (c : Nat) (ch : ChannelInfo) (elig : List ChannelInfo)
    (hstate : out.State = SwapState.stateFailOffchainPayments)
    (hc : c ∈ out.OutgoingChanSet)
    (hid : ch.ChannelID = c) :
    (out ∈ outs → env.Now < out.LastUpdateTime + m.params.FailureBackOff →
      getEligibleChannels m env outs ins = .ok elig → ch ∉ elig)
    ∧ (∀ channels, env.ListChannels = .ok channels → ch ∈ channels →
      out.LastUpdateTime + m.params.FailureBackOff ≤ env.Now →
      getEligibleChannels m env [out] [] = .ok elig → ch ∈ elig) := by
  constructor
  · intro hmem htime helig hbad
    unfold getEligibleChannels at helig
    dsimp only at helig
    cases hpo : processLoopOut (env.Now - m.params.FailureBackOff) outs [] [] with
    | none =>
      rw [hpo] at helig
      dsimp only at helig
      cases Except.ok.inj helig
      simp at hbad
    | some fe =>
      obtain ⟨F, E⟩ := fe
      rw [hpo] at helig
      dsimp only at helig
      have hcF : c ∈ F :=
        processLoopOut_marks _ out c hstate (by omega) hc outs [] [] F E hmem hpo
      cases hpi : processLoopIn ins [] with
      | none =>
        rw [hpi] at helig
        dsimp only at helig
        cases Except.ok.inj helig
        simp at hbad
      | some existingIn =>
        rw [hpi] at helig
        dsimp only at helig
        cases hlc : env.ListChannels with
        | error er => rw [hlc] at helig; simp at helig
        | ok channels =>
          rw [hlc] at helig
          dsimp only at helig
          cases Except.ok.inj helig
          obtain ⟨-, hpred⟩ := List.mem_filter.mp hbad
          simp only [Bool.and_eq_true, Bool.not_eq_true'] at hpred
          have hcont : F.contains c = false := hid ▸ hpred.1.1
          simp at hcont
          exact hcont hcF
  · intro channels hlc hchin htime helig
    unfold getEligibleChannels at helig
    dsimp only at helig
    have hpo : processLoopOut (env.Now - m.params.FailureBackOff) [out] [] [] =
        some ([], []) := by
      simp only [processLoopOut]
      have hmarkneg : ¬(out.State = SwapState.stateFailOffchainPayments ∧
          env.Now - m.params.FailureBackOff < out.LastUpdateTime) := by
        rintro ⟨-, hlt⟩
        omega
      have houter : out.State.Type ≠ SwapStateType.pending := by rw [hstate]; decide
      rw [if_neg hmarkneg, if_pos houter]
    rw [hpo] at helig
    dsimp only [processLoopIn] at helig
    rw [hlc] at helig
    dsimp only at helig
    cases Except.ok.inj helig
    exact List.mem_filter.mpr ⟨hchin, rfl⟩

/-- Witness for `getEligibleChannels_failure_backoff`. -/
theorem getEligibleChannels_failure_backoff_witness :
    chanA1 ∉ ([] : List ChannelInfo) ∧ chanA1 ∈ [chanA1] :=
  ⟨(getEligibleChannels_failure_backoff cW_m7 cW_envA [cW_out7] [] cW_out7 1 chanA1 []
      rfl (by decide) rfl).1 (by decide) (by decide) rfl,
   (getEligibleChannels_failure_backoff cW_m7 cW_envB [cW_out7] [] cW_out7 1 chanA1 [chanA1]
      rfl (by decide) rfl).2 [chanA1] rfl (by decide) (by decide) rfl⟩

lemma ptrsValid_iff (mem : Mem) (p : Parameters) :
    ptrsValid mem p = true ↔ ∀ pr ∈ p.ChannelRules, pr.2 < mem.next := by
  simp [ptrsValid, List.all_eq_true]

lemma cloneRules_spec : ∀ (rules : List (Nat × Nat)) (mem : Mem),
    (∀ pr ∈ rules, pr.2 < mem.next) →
    (∀ i, i < mem.next → (cloneRules mem rules).1.heap i = mem.heap i)
    ∧ mem.next ≤ (cloneRules mem rules).1.next
    ∧ ((cloneRules mem rules).2.map (fun pr => (pr.1, (cloneRules mem rules).1.heap pr.2))
        = rules.map (fun pr => (pr.1, mem.heap pr.2)))
    ∧ (∀ pr ∈ (cloneRules mem rules).2, mem.next ≤ pr.2 ∧ pr.2 < (cloneRules mem rules).1.next) := by
  intro rules
  induction rules with
  | nil =>
    intro mem h
    refine ⟨fun i hi => rfl, le_refl _, rfl, ?_⟩
    intro pr hpr
    simp [cloneRules] at hpr
  | cons r rest ih =>
    intro mem h
    obtain ⟨channel, ptr⟩ := r
    have hptr : ptr < mem.next := h (channel, ptr) (List.mem_cons_self _ _)
    set mem1 : Mem := (alloc mem (mem.heap ptr)).1 with hmem1
    have hnext1 : mem1.next = mem.next + 1 := rfl
    have hheap1 : ∀ i, i < mem.next → mem1.heap i = mem.heap i := by
      intro i hi
      show (if i = mem.next then mem.heap ptr else mem.heap i) = mem.heap i
      rw [if_neg (by omega)]
    have hheap1top : mem1.heap mem.next = mem.heap ptr := by
      show (if mem.next = mem.next then mem.heap ptr else mem.heap mem.next) = mem.heap ptr
      rw [if_pos rfl]
    have hrest : ∀ pr ∈ rest, pr.2 < mem1.next := by
      intro pr hpr
      have := h pr (List.mem_cons_of_mem _ hpr)
      omega
    obtain ⟨ih1, ih2, ih3, ih4⟩ := ih mem1 hrest
    have hunfold : cloneRules mem ((channel, ptr) :: rest)
        = ((cloneRules mem1 rest).1, (channel, mem.next) :: (cloneRules mem1 rest).2) := rfl
    rw [hunfold]
    refine ⟨?_, ?_, ?_, ?_⟩
    · intro i hi
      rw [ih1 i (by omega), hheap1 i hi]
    · have hle : mem.next ≤ mem1.next := by rw [hnext1]; exact Nat.le_succ _
      exact le_trans hle ih2
    · dsimp only
      rw [List.map_cons]
      have hhead : ((channel, mem.next).1, (cloneRules mem1 rest).1.heap (channel, mem.next).2)
          = (channel, mem.heap ptr) := by
        dsimp only
        rw [ih1 mem.next (by omega), hheap1top]
      rw [hhead, ih3]
      have hmaps : rest.map (fun pr => (pr.1, mem1.heap pr.2))
          = rest.map (fun pr => (pr.1, mem.heap pr.2)) := by
        apply List.map_congr_left
        intro a ha
        rw [hheap1 a.2 (h a (List.mem_cons_of_mem _ ha))]
      rw [hmaps, List.map_cons]
    · intro pr hpr
      rcases List.mem_cons.mp hpr with rfl | hpr'
      · have hlt : mem.next < mem1.next := by rw [hnext1]; exact Nat.lt_succ_self _
        exact ⟨le_refl _, lt_of_lt_of_le hlt ih2⟩
      · have hle : mem.next ≤ mem1.next := by rw [hnext1]; exact Nat.le_succ _
        exact ⟨le_trans hle (ih4 pr hpr').1, (ih4 pr hpr').2⟩

lemma readParams_heap_eq (mem mem' : Mem) (p : Parameters)
    (h : ∀ pr ∈ p.ChannelRules, mem'.heap pr.2 = mem.heap pr.2) :
    readParams mem' p = readParams mem p := by
  unfold readParams
  congr 1
  apply List.map_congr_left
  intro a ha
  rw [h a ha]

lemma cloneParameters_spec (mem : Mem) (p : Parameters) (h : ptrsValid mem p = true) :
    readParams (cloneParameters mem p).1 (cloneParameters mem p).2 = readParams mem p
    ∧ ptrsValid (cloneParameters mem p).1 (cloneParameters mem p).2 = true
    ∧ (∀ i, i < mem.next → (cloneParameters mem p).1.heap i = mem.heap i)
    ∧ mem.next ≤ (cloneParameters mem p).1.next
    ∧ (∀ pr ∈ (cloneParameters mem p).2.ChannelRules, mem.next ≤ pr.2) := by
  have hvalid := (ptrsValid_iff mem p).mp h
  obtain ⟨s1, s2, s3, s4⟩ := cloneRules_spec p.ChannelRules mem hvalid
  have hcp : cloneParameters mem p
      = ((cloneRules mem p.ChannelRules).1,
         { p with ChannelRules := (cloneRules mem p.ChannelRules).2 }) := rfl
  rw [hcp]
  refine ⟨?_, ?_, s1, s2, ?_⟩
  · unfold readParams
    dsimp only
    rw [s3]
  · rw [ptrsValid_iff]
    intro pr hpr
    exact (s4 pr hpr).2
  · intro pr hpr
    exact (s4 pr hpr).1

/-- C8: after a successful `SetParameters p`, `GetParameters` reads back the
value of `p`, and the returned parameters are independently owned: writing
through any rule pointer of the returned map changes neither the stored
parameters' value nor the value a later `GetParameters` returns. -/
theorem getParameters_deep_copy (mem : Mem) (m : Manager) (p : Parameters)
    (hv : ptrsValid mem p = true)
    (hok : (SetParameters mem m p).2.2 = none) :
    readParams (GetParameters (SetParameters mem m p).1 (SetParameters mem m p).2.1).1
        (GetParameters (SetParameters mem m p).1 (SetParameters mem m p).2.1).2
      = readParams mem p
    ∧ ∀ pr ∈ (GetParameters (SetParameters mem m p).1 (SetParameters mem m p).2.1).2.ChannelRules,
      ∀ r : ThresholdRule,
      readParams
          (writeRule (GetParameters (SetParameters mem m p).1 (SetParameters mem m p).2.1).1 pr.2 r)
          (SetParameters mem m p).2.1.params
        = readParams (GetParameters (SetParameters mem m p).1 (SetParameters mem m p).2.1).1
            (SetParameters mem m p).2.1.params
      ∧ readParams
          (GetParameters
            (writeRule (GetParameters (SetParameters mem m p).1 (SetParameters mem m p).2.1).1 pr.2 r)
            (SetParameters mem m p).2.1).1
          (GetParameters
            (writeRule (GetParameters (SetParameters mem m p).1 (SetParameters mem m p).2.1).1 pr.2 r)
            (SetParameters mem m p).2.1).2
        = readParams (GetParameters (SetParameters mem m p).1 (SetParameters mem m p).2.1).1
            (GetParameters (SetParameters mem m p).1 (SetParameters mem m p).2.1).2 := by
  cases hval : p.validate m.MinimumConfirmations mem with
  | some e => simp [SetParameters, hval] at hok
  | none =>
    have hset : SetParameters mem m p
        = ((cloneParameters mem p).1, { m with params := (cloneParameters mem p).2 }, none) := by
      simp [SetParameters, hval]
    rw [hset]
    dsimp only
    obtain ⟨C1, C2, C3, C4, C5⟩ := cloneParameters_spec mem p hv
    obtain ⟨D1, D2, D3, D4, D5⟩ :=
      cloneParameters_spec (cloneParameters mem p).1 (cloneParameters mem p).2 C2
    have hstored := (ptrsValid_iff _ _).mp C2
    refine ⟨D1.trans C1, ?_⟩
    intro pr hpr r
    have hfresh := D5 pr hpr
    constructor
    · apply readParams_heap_eq
      intro a ha
      show (if a.2 = pr.2 then r
        else (cloneParameters (cloneParameters mem p).1 (cloneParameters mem p).2).1.heap a.2)
        = (cloneParameters (cloneParameters mem p).1 (cloneParameters mem p).2).1.heap a.2
      rw [if_neg (by have := hstored a ha; omega)]
    · have hvalidW : ptrsValid
          (writeRule (cloneParameters (cloneParameters mem p).1 (cloneParameters mem p).2).1 pr.2 r)
          (cloneParameters mem p).2 = true := by
        rw [ptrsValid_iff]
        intro a ha
        show a.2 < (cloneParameters (cloneParameters mem p).1 (cloneParameters mem p).2).1.next
        have := hstored a ha
        omega
      obtain ⟨E1, -, -, -, -⟩ := cloneParameters_spec _ _ hvalidW
      have hW : readParams
          (writeRule (cloneParameters (cloneParameters mem p).1 (cloneParameters mem p).2).1 pr.2 r)
          (cloneParameters mem p).2
          = readParams (cloneParameters (cloneParameters mem p).1 (cloneParameters mem p).2).1
              (cloneParameters mem p).2 := by
        apply readParams_heap_eq
        intro a ha
        show (if a.2 = pr.2 then r
          else (cloneParameters (cloneParameters mem p).1 (cloneParameters mem p).2).1.heap a.2)
          = (cloneParameters (cloneParameters mem p).1 (cloneParameters mem p).2).1.heap a.2
        rw [if_neg (by have := hstored a ha; omega)]
      have hM : readParams (cloneParameters (cloneParameters mem p).1 (cloneParameters mem p).2).1
            (cloneParameters mem p).2
          = readParams (cloneParameters mem p).1 (cloneParameters mem p).2 := by
        apply readParams_heap_eq
        intro a ha
        exact D3 a.2 (hstored a ha)
      exact E1.trans (hW.trans (hM.trans D1.symm))

/-- Witness for `getParameters_deep_copy`. -/
theorem getParameters_deep_copy_witness :
    readParams
        (GetParameters (SetParameters cW_mem cW_m cW_p8).1 (SetParameters cW_mem cW_m cW_p8).2.1).1
        (GetParameters (SetParameters cW_mem cW_m cW_p8).1 (SetParameters cW_mem cW_m cW_p8).2.1).2
      = readParams cW_mem cW_p8
    ∧ readParams
        (writeRule
          (GetParameters (SetParameters cW_mem cW_m cW_p8).1 (SetParameters cW_mem cW_m cW_p8).2.1).1
          2 otherRule)
        (SetParameters cW_mem cW_m cW_p8).2.1.params
      = readParams
          (GetParameters (SetParameters cW_mem cW_m cW_p8).1 (SetParameters cW_mem cW_m cW_p8).2.1).1
          (SetParameters cW_mem cW_m cW_p8).2.1.params := by
  have h := getParameters_deep_copy cW_mem cW_m cW_p8 (by decide) rfl
  exact ⟨h.1, (h.2 (5, 2) (by decide) otherRule).1⟩

end Loop
